import Mathlib

/-!
Verification development for the Smart-Plant-Monitor repository.

Shallow embedding of the predictive-control core:
  safety validation and rate limiting  (src/services/actuator-control/safety.py),
  the actuation state machine          (src/services/actuator-control/control_logic.py),
  trend forecasting / anomaly detection (src/machine-learning/trend_predictor.py),
  the actuator decision engine          (src/machine-learning/actuator_model.py).

Timestamps, durations and sensor values are modelled as rationals; Python
dictionaries keyed by strings are modelled as functions out of String.
-/

namespace SmartPlant

/-! ## SafetyManager (src/services/actuator-control/safety.py)

State: `command_history`, a defaultdict mapping an actuator name to the list
of timestamps of successfully validated commands. -/

structure SafetyState where
  history : String → List ℚ

/-- The actuator whitelist checked at the top of `validate_command`. -/
def actuatorWhitelist : List String := ["pump", "fan", "grow_light"]

/-- The action whitelist checked by `validate_command`. -/
def actionWhitelist : List String := ["ON", "OFF"]

/-- MAX_DURATIONS dict together with the default 3600 used by
`self.MAX_DURATIONS.get(actuator, 3600)`. -/
def maxDurationFor (a : String) : ℚ :=
  if a = "pump" then 1800
  else if a = "fan" then 3600
  else if a = "grow_light" then 14400
  else 3600

/-- MAX_COMMANDS_PER_MINUTE. -/
def maxCommandsPerMinute : ℕ := 10

/-- The list comprehension in `_check_rate_limit`: keep only command
timestamps strictly newer than `now` minus one minute. -/
def prunedWindow (st : SafetyState) (a : String) (now : ℚ) : List ℚ :=
  (st.history a).filter (fun t => decide (now - 60 < t))

/-- `_check_rate_limit`: prunes the actuator's window in place, then succeeds
iff the window holds fewer than MAX_COMMANDS_PER_MINUTE commands. -/
def checkRateLimit (st : SafetyState) (a : String) (now : ℚ) :
    Bool × SafetyState :=
  let pruned := prunedWindow st a now
  (decide (pruned.length < maxCommandsPerMinute),
   ⟨fun x => if x = a then pruned else st.history x⟩)

/-- `_record_command`: append the current timestamp to the actuator's window. -/
def recordCommand (st : SafetyState) (a : String) (now : ℚ) : SafetyState :=
  ⟨fun x => if x = a then st.history x ++ [now] else st.history x⟩

/-- `validate_command`: whitelist, action, non-negative duration, then rate
limit; on success the command is recorded.  The duration-exceeds-cap branch
(lines 47-49 of safety.py) only logs a warning and takes no action, so it does
not appear in the returned value or state. -/
def validateCommand (st : SafetyState) (a action : String) (dur now : ℚ) :
    Bool × SafetyState :=
  if a ∈ actuatorWhitelist then
    if action ∈ actionWhitelist then
      if dur < 0 then (false, st)
      else
        let r := checkRateLimit st a now
        if r.1 then (true, recordCommand r.2 a now) else (false, r.2)
    else (false, st)
  else (false, st)

/-! ## ControlLogic (src/services/actuator-control/control_logic.py) -/

/-- The three physical actuators owned by ControlLogic. -/
inductive Act
  | pump
  | fan
  | growLight
deriving DecidableEq

/-- One entry of `actuator_timers`: `start_time` is None when OFF. -/
structure ActTimer where
  start_time : Option ℚ
  duration : ℚ
deriving DecidableEq

/-- State of ControlLogic: the `actuator_timers` map. -/
structure ControlState where
  timers : Act → ActTimer

/-- The timer value meaning OFF (start_time None, duration 0). -/
def offTimer : ActTimer := ⟨none, 0⟩

/-- `activate_pump` and friends, parametric in the actuator. -/
def activate (st : ControlState) (a : Act) (now dur : ℚ) : ControlState :=
  ⟨fun x => if x = a then ⟨some now, dur⟩ else st.timers x⟩

/-- `deactivate_pump` / `deactivate_fan` / `deactivate_light`, parametric in
the actuator: reset its timer to `{start_time: None, duration: 0}`. -/
def deactivate (st : ControlState) (a : Act) : ControlState :=
  ⟨fun x => if x = a then offTimer else st.timers x⟩

/-- `deactivate_all`: deactivate pump, then fan, then grow light. -/
def deactivateAll (st : ControlState) : ControlState :=
  deactivate (deactivate (deactivate st .pump) .fan) .growLight

/-! ## Claim theorems for the safety validator and state machine -/

/-- C9: after `deactivate_all()`, every actuator's timer is OFF
(start_time cleared, duration zero), regardless of the prior state. -/
theorem C9_deactivate_all_off (st : ControlState) (a : Act) :
    (deactivateAll st).timers a = offTimer := by
  cases a <;> simp [deactivateAll, deactivate]

/-- Every whitelisted actuator has a strictly positive duration cap. -/
lemma maxDurationFor_pos (a : String) (ha : a ∈ actuatorWhitelist) :
    0 < maxDurationFor a := by
  simp only [actuatorWhitelist, List.mem_cons, List.not_mem_nil, or_false] at ha
  rcases ha with rfl | rfl | rfl <;> decide

/-- C2: a command for a whitelisted actuator with a valid action and a
duration strictly above the actuator's cap is validated successfully whenever
the rate limit is not exceeded; the over-cap duration is neither rejected nor
clamped (the outcome is the same for every over-cap duration). -/
theorem C2_overcap_duration_warn_only
    (st : SafetyState) (a action : String) (dur now : ℚ)
    (ha : a ∈ actuatorWhitelist) (hact : action ∈ actionWhitelist)
    (hcap : maxDurationFor a < dur)
    (hrate : (prunedWindow st a now).length < maxCommandsPerMinute) :
    (validateCommand st a action dur now).1 = true ∧
    ∀ d : ℚ, maxDurationFor a < d →
      validateCommand st a action d now = validateCommand st a action dur now := by
  have hpos := maxDurationFor_pos a ha
  have hdur : ¬ dur < 0 := by linarith
  constructor
  · simp [validateCommand, ha, hact, hdur, checkRateLimit, hrate]
  · intro d hd
    have hdnn : ¬ d < 0 := by linarith
    simp [validateCommand, ha, hact, hdur, hdnn]

/-- Witness for C2 at a concrete state: an empty history, actuator pump,
action ON, duration 2000 (above the 1800 cap). -/
theorem C2_overcap_duration_warn_only_witness :
    (validateCommand ⟨fun _ => []⟩ "pump" "ON" 2000 0).1 = true ∧
    ∀ d : ℚ, maxDurationFor "pump" < d →
      validateCommand ⟨fun _ => []⟩ "pump" "ON" d 0 =
        validateCommand ⟨fun _ => []⟩ "pump" "ON" 2000 0 :=
  C2_overcap_duration_warn_only ⟨fun _ => []⟩ "pump" "ON" 2000 0
    (by decide) (by decide) (by norm_num [maxDurationFor])
    (by simp [prunedWindow, maxCommandsPerMinute])

/-- C3: for a well-formed command, validation succeeds exactly when the
sliding 60-second window holds fewer than 10 prior recorded commands (so with
10 commands already in the window the next call is rejected), and on success
the command's timestamp is appended to that window. -/
theorem C3_rate_limit_window
    (st : SafetyState) (a action : String) (dur now : ℚ)
    (ha : a ∈ actuatorWhitelist) (hact : action ∈ actionWhitelist)
    (hdur : 0 ≤ dur) :
    ((validateCommand st a action dur now).1 = true ↔
      (prunedWindow st a now).length < maxCommandsPerMinute) ∧
    ((prunedWindow st a now).length < maxCommandsPerMinute →
      (validateCommand st a action dur now).2.history a =
        prunedWindow st a now ++ [now]) := by
  have hneg : ¬ dur < 0 := by linarith
  constructor
  · by_cases h : (prunedWindow st a now).length < maxCommandsPerMinute <;>
      simp [validateCommand, ha, hact, hneg, checkRateLimit, h]
  · intro h
    simp [validateCommand, ha, hact, hneg, checkRateLimit, h, recordCommand]

/-- Witness for C3 at a concrete state whose pump window already holds ten
commands at time 30: the call at time 59 is rejected, and a fresh state
accepts and records. -/
theorem C3_rate_limit_window_witness :
    ((validateCommand ⟨fun _ => List.replicate 10 30⟩ "pump" "ON" 5 59).1 = true ↔
      (prunedWindow ⟨fun _ => List.replicate 10 30⟩ "pump" 59).length <
        maxCommandsPerMinute) ∧
    ((prunedWindow ⟨fun _ => List.replicate 10 30⟩ "pump" 59).length <
        maxCommandsPerMinute →
      (validateCommand ⟨fun _ => List.replicate 10 30⟩ "pump" "ON" 5 59).2.history
          "pump" =
        prunedWindow ⟨fun _ => List.replicate 10 30⟩ "pump" 59 ++ [59]) :=
  C3_rate_limit_window ⟨fun _ => List.replicate 10 30⟩ "pump" "ON" 5 59
    (by decide) (by decide) (by norm_num)

/-- C10: whenever `validate_command` returns failure, no new timestamp is in
any actuator's window: every timestamp in the post-state window was already in
the pre-state window (the rate-limit path only prunes old entries). -/
theorem C10_rejected_commands_not_recorded
    (st : SafetyState) (a action : String) (dur now : ℚ) (x : String) (t : ℚ)
    (hfail : (validateCommand st a action dur now).1 = false)
    (ht : t ∈ (validateCommand st a action dur now).2.history x) :
    t ∈ st.history x := by
  by_cases ha : a ∈ actuatorWhitelist
  · by_cases hact : action ∈ actionWhitelist
    · by_cases hdur : dur < 0
      · simpa [validateCommand, ha, hact, hdur] using ht
      · by_cases hrate : (prunedWindow st a now).length < maxCommandsPerMinute
        · simp [validateCommand, ha, hact, hdur, checkRateLimit, hrate] at hfail
        · have ht2 : t ∈ (if x = a then prunedWindow st a now else st.history x) := by
            simpa [validateCommand, ha, hact, hdur, checkRateLimit, hrate] using ht
          by_cases hx : x = a
          · subst hx
            rw [if_pos rfl] at ht2
            exact List.mem_of_mem_filter ht2
          · rwa [if_neg hx] at ht2
    · simpa [validateCommand, ha, hact] using ht
  · simpa [validateCommand, ha] using ht

/-- Witness for C10: validating the unknown actuator door fails and leaves
the pump window (holding timestamp 1) as it was. -/
theorem C10_rejected_commands_not_recorded_witness :
    (1 : ℚ) ∈ SafetyState.history ⟨fun _ => [1]⟩ "pump" :=
  C10_rejected_commands_not_recorded ⟨fun _ => [1]⟩ "door" "ON" 5 0 "pump" 1
    (by decide) (by simp [validateCommand, actuatorWhitelist])

/-! ## TrendPredictor (src/machine-learning/trend_predictor.py) -/

/-- The four metrics that own history buffers and trend models. -/
inductive Metric
  | temperature
  | humidity
  | soilMoisture
  | lightIntensity
deriving DecidableEq

/-- FORECAST_INTERVAL_MINUTES from config.py. -/
def forecastIntervalMinutes : ℕ := 30

/-- Number of forecast points: `(hours_ahead * 60) // FORECAST_INTERVAL_MINUTES`. -/
def numPredictions (hoursAhead : ℕ) : ℕ := hoursAhead * 60 / forecastIntervalMinutes

/-- A Ridge regression fitted on degree-2 polynomial features of the
timestamp is an affine-plus-quadratic function of time; `c0` is the
intercept, `c1` and `c2` the two coefficients. -/
structure QuadModel where
  c0 : ℚ
  c1 : ℚ
  c2 : ℚ

/-- Evaluation of the fitted model at a (future) timestamp. -/
def QuadModel.eval (mo : QuadModel) (t : ℚ) : ℚ :=
  mo.c0 + mo.c1 * t + mo.c2 * t * t

/-- One forecast entry of the trained path of `predict_future`.  The source
stores `confidence = exp(confExp)`; we keep the exponent
`-minutes_ahead / (hours_ahead * 60)` as a rational and apply `Real.exp` in
the statements. -/
structure TrendPoint where
  minutesAhead : ℕ
  value : ℚ
  confExp : ℚ

/-- The k-th point (k = 1-based) produced by the trained path of
`predict_future`: timestamp `k * FORECAST_INTERVAL_MINUTES`, model value
there, confidence exponent `-timestamp / (hours_ahead * 60)`. -/
def trainedPoint (mo : QuadModel) (hoursAhead k : ℕ) : TrendPoint :=
  { minutesAhead := k * forecastIntervalMinutes
    value := mo.eval ((k * forecastIntervalMinutes : ℕ) : ℚ)
    confExp := -(((k * forecastIntervalMinutes : ℕ) : ℚ)) / ((hoursAhead : ℚ) * 60) }

/-- The trained path of `predict_future` for one metric whose model is `mo`:
points at `k * interval` minutes ahead for `k = 1 .. num_predictions`. -/
def predictFutureTrained (mo : QuadModel) (hoursAhead : ℕ) : List TrendPoint :=
  (List.range (numPredictions hoursAhead)).map (fun i => trainedPoint mo hoursAhead (i + 1))

/-- One point of a forecast or of the untrained fallback: minutes ahead,
value and a rational confidence (the wall-clock string is presentation only
and omitted). -/
structure ForecastPoint where
  minutesAhead : ℕ
  value : ℚ
  confidence : ℚ
deriving DecidableEq

/-- The hardcoded hourly drift constants of `_predict_simple_trends`. -/
def simpleTrend : Metric → ℚ
  | .temperature => 1 / 2
  | .humidity => -1
  | .soilMoisture => -2
  | .lightIntensity => 0

/-- The `np.clip` bounds of `_predict_simple_trends`: temperature to
[10, 40], the percentage metrics to [0, 100]. -/
def clampMetric (m : Metric) (v : ℚ) : ℚ :=
  match m with
  | .temperature => min (max v 10) 40
  | _ => min (max v 0) 100

/-- The i-th point (i = 1-based) of the untrained fallback for one metric:
linear drift plus injected noise (modelled as an oracle `noise`), clamped,
with confidence `max(0.3, 1 - hours_fraction / hours_ahead)`. -/
def simplePoint (m : Metric) (current : ℚ) (noise : ℕ → ℚ)
    (hoursAhead i : ℕ) : ForecastPoint :=
  { minutesAhead := i * forecastIntervalMinutes
    value := clampMetric m
      (current + simpleTrend m * (((i * forecastIntervalMinutes : ℕ) : ℚ) / 60) + noise i)
    confidence :=
      max (3 / 10) (1 - (((i * forecastIntervalMinutes : ℕ) : ℚ) / 60) / (hoursAhead : ℚ)) }

/-- The untrained fallback `_predict_simple_trends` for one metric present in
the current reading. -/
def predictSimpleTrends (m : Metric) (current : ℚ) (noise : ℕ → ℚ)
    (hoursAhead : ℕ) : List ForecastPoint :=
  (List.range (numPredictions hoursAhead)).map
    (fun i => simplePoint m current noise hoursAhead (i + 1))

/-! ## History buffers (`update_history`) -/

/-- max_buffer_size: 24 hours of data at one-minute intervals. -/
def maxBufferSize : ℕ := 1440

/-- State of the four per-metric history buffers of the TrendPredictor. -/
structure TrendState where
  buffers : Metric → List (ℚ × ℚ)

/-- Appending one (timestamp, value) pair to a buffer, popping the front
entry when the buffer would exceed max_buffer_size. -/
def pushBuffer (buf : List (ℚ × ℚ)) (ts v : ℚ) : List (ℚ × ℚ) :=
  if maxBufferSize < (buf ++ [(ts, v)]).length then (buf ++ [(ts, v)]).drop 1
  else buf ++ [(ts, v)]

/-- `update_history(timestamp, data)`: for each metric present in the
reading, push one pair onto that metric's buffer. -/
def updateHistory (st : TrendState) (ts : ℚ) (data : Metric → Option ℚ) : TrendState :=
  ⟨fun m => match data m with
    | some v => pushBuffer (st.buffers m) ts v
    | none => st.buffers m⟩

/-- The buffers start empty. -/
def initialTrendState : TrendState := ⟨fun _ => []⟩

/-- A sequence of `update_history` calls. -/
def runUpdates (st : TrendState) (calls : List (ℚ × (Metric → Option ℚ))) : TrendState :=
  calls.foldl (fun s c => updateHistory s c.1 c.2) st

/-! ## Anomaly detection (`detect_anomalies`) -/

/-- Severity of an anomaly. -/
inductive Severity
  | medium
  | high
deriving DecidableEq

/-- The record appended by `detect_anomalies` for a deviating metric. -/
structure AnomalyRecord where
  metric : String
  current_value : ℚ
  predicted_value : ℚ
  deviation : ℚ
  severity : Severity
deriving DecidableEq

/-- The adaptive threshold of `detect_anomalies` (lines 267-275 of
trend_predictor.py): metrics other than temperature and light_intensity take
the humidity/soil branch. -/
def anomalyThreshold (m : String) (v : ℚ) : ℚ :=
  if m = "temperature" then max 8 (|v| * (15 / 100))
  else if m = "light_intensity" then max 35 (|v| * (40 / 100))
  else max 30 (|v| * (40 / 100))

/-- `detect_anomalies(current_data, predictions)`: for each live metric with
a non-empty forecast, compare to the first forecast point and emit a record
when the deviation exceeds the threshold, severity high when it exceeds twice
the threshold. -/
def detectAnomalies (current : List (String × ℚ))
    (preds : String → List ForecastPoint) : List AnomalyRecord :=
  current.filterMap (fun mv =>
    match preds mv.1 with
    | [] => none
    | p :: _ =>
      if anomalyThreshold mv.1 mv.2 < |mv.2 - p.value| then
        some { metric := mv.1
               current_value := mv.2
               predicted_value := p.value
               deviation := |mv.2 - p.value|
               severity := if anomalyThreshold mv.1 mv.2 * 2 < |mv.2 - p.value|
                           then .high else .medium }
      else none)

/-- Transcription of the spec sentence for C4 (spec section 4.3), written
from the claim's words rather than from the source: predicted value is the
forecast's first point, deviation = |live - predicted|, thresholds
max(8.0, 0.15 |live|), max(35.0, 0.40 |live|), max(30.0, 0.40 |live|), emit
exactly when deviation > threshold, severity high exactly when
deviation > 2 threshold. -/
def specAnomalyThreshold (m : String) (live : ℚ) : ℚ :=
  if m = "temperature" then max 8 ((3 / 20) * |live|)
  else if m = "light_intensity" then max 35 ((2 / 5) * |live|)
  else max 30 ((2 / 5) * |live|)

/-- Spec-side anomaly detector for the refinement statement of C4. -/
def specDetectAnomalies (live : List (String × ℚ))
    (forecast : String → List ForecastPoint) : List AnomalyRecord :=
  live.filterMap (fun mv =>
    match forecast mv.1 with
    | [] => none
    | p :: _ =>
      if |mv.2 - p.value| > specAnomalyThreshold mv.1 mv.2 then
        some { metric := mv.1
               current_value := mv.2
               predicted_value := p.value
               deviation := |mv.2 - p.value|
               severity := if |mv.2 - p.value| > 2 * specAnomalyThreshold mv.1 mv.2
                           then .high else .medium }
      else none)

/-! ## Claim theorems for the trend predictor -/

/-- C4: `detect_anomalies` coincides with the spec-side detector on every
reading list and every forecast: same emitted records, same deviations, same
thresholds, same severities. -/
theorem C4_detect_anomalies_matches_spec
    (current : List (String × ℚ)) (preds : String → List ForecastPoint) :
    detectAnomalies current preds = specDetectAnomalies current preds := by
  unfold detectAnomalies specDetectAnomalies
  apply List.filterMap_congr
  intro mv _
  have hth : anomalyThreshold mv.1 mv.2 = specAnomalyThreshold mv.1 mv.2 := by
    unfold anomalyThreshold specAnomalyThreshold
    split_ifs <;> (congr 1; ring)
  have h2 : anomalyThreshold mv.1 mv.2 * 2 = 2 * specAnomalyThreshold mv.1 mv.2 := by
    rw [hth]; ring
  cases hp : preds mv.1 with
  | nil => rfl
  | cons p ps =>
      simp only [gt_iff_lt, hth, h2, mul_comm (specAnomalyThreshold mv.1 mv.2) 2]

/-- Pushing onto a buffer that respects the capacity keeps it within the
capacity. -/
lemma pushBuffer_length_le (buf : List (ℚ × ℚ)) (ts v : ℚ)
    (h : buf.length ≤ maxBufferSize) :
    (pushBuffer buf ts v).length ≤ maxBufferSize := by
  unfold pushBuffer
  split_ifs with hlen <;> simp_all

/-- One `update_history` call preserves the capacity bound of every buffer. -/
lemma updateHistory_length_le (st : TrendState) (ts : ℚ) (data : Metric → Option ℚ)
    (h : ∀ m, (st.buffers m).length ≤ maxBufferSize) :
    ∀ m, ((updateHistory st ts data).buffers m).length ≤ maxBufferSize := by
  intro m
  show (match data m with
    | some v => pushBuffer (st.buffers m) ts v
    | none => st.buffers m).length ≤ maxBufferSize
  cases data m with
  | some v => exact pushBuffer_length_le _ _ _ (h m)
  | none => exact h m

/-- The capacity bound is an invariant of arbitrary call sequences. -/
lemma runUpdates_length_le (calls : List (ℚ × (Metric → Option ℚ))) :
    ∀ st : TrendState, (∀ m, (st.buffers m).length ≤ maxBufferSize) →
      ∀ m, ((runUpdates st calls).buffers m).length ≤ maxBufferSize := by
  induction calls with
  | nil => intro st h m; exact h m
  | cons c cs ih =>
      intro st h m
      exact ih (updateHistory st c.1 c.2) (updateHistory_length_le st c.1 c.2 h) m

/-- C7: starting from empty buffers, every sequence of `update_history` calls
leaves every buffer with at most 1440 pairs; a call appends exactly one
(timestamp, value) pair per metric present in the reading, evicting the
oldest entry first (and only then) when the buffer is full, and leaves absent
metrics untouched. -/
theorem C7_history_buffer_bounded_fifo :
    (∀ (calls : List (ℚ × (Metric → Option ℚ))) (m : Metric),
      ((runUpdates initialTrendState calls).buffers m).length ≤ maxBufferSize) ∧
    (∀ (st : TrendState) (ts : ℚ) (data : Metric → Option ℚ) (m : Metric) (v : ℚ),
      data m = some v → (st.buffers m).length ≤ maxBufferSize →
      (updateHistory st ts data).buffers m =
        if (st.buffers m).length = maxBufferSize
        then (st.buffers m).drop 1 ++ [(ts, v)]
        else st.buffers m ++ [(ts, v)]) ∧
    (∀ (st : TrendState) (ts : ℚ) (data : Metric → Option ℚ) (m : Metric),
      data m = none → (updateHistory st ts data).buffers m = st.buffers m) := by
  refine ⟨?_, ?_, ?_⟩
  · intro calls m
    exact runUpdates_length_le calls initialTrendState
      (fun m => by simp [initialTrendState]) m
  · intro st ts data m v hd hle
    have hb : (updateHistory st ts data).buffers m = pushBuffer (st.buffers m) ts v := by
      show (match data m with
        | some v => pushBuffer (st.buffers m) ts v
        | none => st.buffers m) = _
      rw [hd]
    rw [hb]
    unfold pushBuffer
    by_cases hfull : (st.buffers m).length = maxBufferSize
    · have h1 : 1 ≤ (st.buffers m).length := by
        rw [hfull]; norm_num [maxBufferSize]
      rw [if_pos (by simp; omega), if_pos hfull,
        List.drop_append_of_le_length h1]
    · rw [if_neg (by simp; omega), if_neg hfull]
  · intro st ts data m hd
    show (match data m with
      | some v => pushBuffer (st.buffers m) ts v
      | none => st.buffers m) = _
    rw [hd]

/-- Witness for C7: updating the empty state with temperature 5 at time 1
yields the single-pair buffer described by the append-then-evict rule. -/
theorem C7_history_buffer_bounded_fifo_witness :
    (updateHistory initialTrendState 1 (fun _ => some 5)).buffers Metric.temperature =
      (if (initialTrendState.buffers Metric.temperature).length = maxBufferSize
       then (initialTrendState.buffers Metric.temperature).drop 1 ++ [((1 : ℚ), (5 : ℚ))]
       else initialTrendState.buffers Metric.temperature ++ [((1 : ℚ), (5 : ℚ))]) :=
  C7_history_buffer_bounded_fifo.2.1 initialTrendState 1 (fun _ => some 5)
    Metric.temperature 5 rfl (by decide)

/-- The i-th element of the trained forecast is the point for step i + 1. -/
lemma predictFutureTrained_getElem (mo : QuadModel) (hoursAhead i : ℕ)
    (hi : i < (predictFutureTrained mo hoursAhead).length) :
    (predictFutureTrained mo hoursAhead)[i] = trainedPoint mo hoursAhead (i + 1) := by
  simp [predictFutureTrained]

/-- The i-th element of the fallback forecast is the point for step i + 1. -/
lemma predictSimpleTrends_getElem (m : Metric) (current : ℚ) (noise : ℕ → ℚ)
    (hoursAhead i : ℕ)
    (hi : i < (predictSimpleTrends m current noise hoursAhead).length) :
    (predictSimpleTrends m current noise hoursAhead)[i] =
      simplePoint m current noise hoursAhead (i + 1) := by
  simp [predictSimpleTrends]

/-- C5: within one `predict_future` call the confidences are monotone in the
horizon: on the trained path `exp(-minutes_ahead / (hours_ahead * 60))` is
strictly decreasing along the returned list, and on the untrained fallback
`max(0.3, 1 - hours_fraction / hours_ahead)` is non-increasing along it. -/
theorem C5_forecast_confidence_monotone
    (mo : QuadModel) (m : Metric) (current : ℚ) (noise : ℕ → ℚ)
    (hoursAhead : ℕ) (hh : 0 < hoursAhead) (i j : ℕ) (hij : i < j)
    (hi : i < (predictFutureTrained mo hoursAhead).length)
    (hj : j < (predictFutureTrained mo hoursAhead).length)
    (hi2 : i < (predictSimpleTrends m current noise hoursAhead).length)
    (hj2 : j < (predictSimpleTrends m current noise hoursAhead).length) :
    Real.exp (((predictFutureTrained mo hoursAhead)[j].confExp : ℚ) : ℝ) <
      Real.exp (((predictFutureTrained mo hoursAhead)[i].confExp : ℚ) : ℝ) ∧
    (predictSimpleTrends m current noise hoursAhead)[j].confidence ≤
      (predictSimpleTrends m current noise hoursAhead)[i].confidence := by
  have hhQ : (0 : ℚ) < (hoursAhead : ℚ) := by exact_mod_cast hh
  constructor
  · rw [predictFutureTrained_getElem mo hoursAhead i hi,
      predictFutureTrained_getElem mo hoursAhead j hj, Real.exp_lt_exp]
    have hlt : -((((j + 1) * forecastIntervalMinutes : ℕ) : ℚ)) / ((hoursAhead : ℚ) * 60) <
        -((((i + 1) * forecastIntervalMinutes : ℕ) : ℚ)) / ((hoursAhead : ℚ) * 60) := by
      rw [div_lt_div_iff_of_pos_right (by positivity)]
      have : (((i + 1) * forecastIntervalMinutes : ℕ) : ℚ) <
          (((j + 1) * forecastIntervalMinutes : ℕ) : ℚ) := by
        have : (i + 1) * forecastIntervalMinutes < (j + 1) * forecastIntervalMinutes := by
          simp only [forecastIntervalMinutes]; omega
        exact_mod_cast this
      linarith
    calc ((trainedPoint mo hoursAhead (j + 1)).confExp : ℝ)
        = ((-((((j + 1) * forecastIntervalMinutes : ℕ) : ℚ)) / ((hoursAhead : ℚ) * 60) : ℚ) : ℝ) := rfl
      _ < ((-((((i + 1) * forecastIntervalMinutes : ℕ) : ℚ)) / ((hoursAhead : ℚ) * 60) : ℚ) : ℝ) := by
          exact_mod_cast hlt
      _ = ((trainedPoint mo hoursAhead (i + 1)).confExp : ℝ) := rfl
  · rw [predictSimpleTrends_getElem m current noise hoursAhead i hi2,
      predictSimpleTrends_getElem m current noise hoursAhead j hj2]
    show max (3 / 10) (1 - ((((j + 1) * forecastIntervalMinutes : ℕ) : ℚ) / 60) / (hoursAhead : ℚ)) ≤
      max (3 / 10) (1 - ((((i + 1) * forecastIntervalMinutes : ℕ) : ℚ) / 60) / (hoursAhead : ℚ))
    apply max_le_max (le_refl _)
    have hle : ((((i + 1) * forecastIntervalMinutes : ℕ) : ℚ) / 60) / (hoursAhead : ℚ) ≤
        ((((j + 1) * forecastIntervalMinutes : ℕ) : ℚ) / 60) / (hoursAhead : ℚ) := by
      rw [div_le_div_iff_of_pos_right hhQ, div_le_div_iff_of_pos_right (by norm_num)]
      have : (i + 1) * forecastIntervalMinutes ≤ (j + 1) * forecastIntervalMinutes :=
        Nat.mul_le_mul_right _ (by omega)
      exact_mod_cast this
    linarith

/-- Witness for C5 at a zero model, temperature, six-hour horizon, indices 0
and 1. -/
theorem C5_forecast_confidence_monotone_witness :
    Real.exp ((((predictFutureTrained ⟨0, 0, 0⟩ 6).get
        ⟨1, by simp [predictFutureTrained, numPredictions, forecastIntervalMinutes]⟩).confExp : ℚ) : ℝ) <
      Real.exp ((((predictFutureTrained ⟨0, 0, 0⟩ 6).get
        ⟨0, by simp [predictFutureTrained, numPredictions, forecastIntervalMinutes]⟩).confExp : ℚ) : ℝ) ∧
    ((predictSimpleTrends Metric.temperature 20 (fun _ => 0) 6).get
        ⟨1, by simp [predictSimpleTrends, numPredictions, forecastIntervalMinutes]⟩).confidence ≤
      ((predictSimpleTrends Metric.temperature 20 (fun _ => 0) 6).get
        ⟨0, by simp [predictSimpleTrends, numPredictions, forecastIntervalMinutes]⟩).confidence := by
  have h := C5_forecast_confidence_monotone ⟨0, 0, 0⟩ Metric.temperature 20 (fun _ => 0) 6
    (by decide) 0 1 (by decide)
    (by simp [predictFutureTrained, numPredictions, forecastIntervalMinutes])
    (by simp [predictFutureTrained, numPredictions, forecastIntervalMinutes])
    (by simp [predictSimpleTrends, numPredictions, forecastIntervalMinutes])
    (by simp [predictSimpleTrends, numPredictions, forecastIntervalMinutes])
  simpa [List.get_eq_getElem] using h

/-! ## ActuatorController (src/machine-learning/actuator_model.py)

A RandomForestClassifier on boolean targets is an ensemble of decision
trees; each tree maps a reading to the class counts of the leaf it reaches,
and `predict_proba` averages the per-tree class distributions.  The fitting
algorithm itself is outside the claims, so a fitted tree is represented by
its leaf-count function. -/

/-- One decision tree of the ensemble: a reading is mapped to the
(class-False count, class-True count) of the leaf it reaches. -/
structure DTree where
  leafCounts : (String → Option ℚ) → ℕ × ℕ

/-- Probability the tree assigns to class False: its leaf's normalized
class-0 count. -/
def DTree.proba0 (t : DTree) (x : String → Option ℚ) : ℚ :=
  (((t.leafCounts x).1 : ℚ)) / (((t.leafCounts x).1 : ℚ) + ((t.leafCounts x).2 : ℚ))

/-- Probability the tree assigns to class True. -/
def DTree.proba1 (t : DTree) (x : String → Option ℚ) : ℚ :=
  (((t.leafCounts x).2 : ℚ)) / (((t.leafCounts x).1 : ℚ) + ((t.leafCounts x).2 : ℚ))

/-- A fitted RandomForestClassifier: its list of trees. -/
structure Forest where
  trees : List DTree

/-- `predict_proba` entry for class False: mean of the per-tree
probabilities. -/
def Forest.proba0 (f : Forest) (x : String → Option ℚ) : ℚ :=
  ((f.trees.map (fun t => t.proba0 x)).sum) / (f.trees.length : ℚ)

/-- `predict_proba` entry for class True. -/
def Forest.proba1 (f : Forest) (x : String → Option ℚ) : ℚ :=
  ((f.trees.map (fun t => t.proba1 x)).sum) / (f.trees.length : ℚ)

/-- The body of `predict_with_confidence` for one actuator:
`pred_class = argmax(pred_proba)` (ties resolve to class 0, as `np.argmax`
returns the first maximal index) and `confidence = pred_proba[pred_class]`. -/
def Forest.predictWithConf (f : Forest) (x : String → Option ℚ) : Bool × ℚ :=
  if f.proba0 x < f.proba1 x then (true, f.proba1 x) else (false, f.proba0 x)

/-- The errors `predict` / `predict_with_confidence` can raise. -/
inductive PredictError
  | untrained
  | missingFeature (feature : String)
deriving DecidableEq

/-- The error raised when training is requested with too few samples
(`train_test_split` refuses an empty train or test split). -/
inductive TrainError
  | insufficientData
deriving DecidableEq

/-- State of an ActuatorController: per-actuator models plus the feature and
target name lists and the trained flag. -/
structure ActuatorState where
  models : List (String × Forest)
  feature_names : List String
  target_names : List String
  is_trained : Bool

/-- Test size of `train_test_split(..., test_size=0.2)`: the ceiling of a
fifth of the sample count. -/
def nTestSamples (n : ℕ) : ℕ := (n + 4) / 5

/-- Train size of the same split: the remaining samples. -/
def nTrainSamples (n : ℕ) : ℕ := n - nTestSamples n

/-- `ActuatorController.train`: `train_test_split` raises before anything is
mutated when the train or test split would be empty; otherwise one model per
target actuator is fitted (fitting abstracted as the oracle `fit`), the model
map is rebuilt and `is_trained` is set.  The pair returns the outcome together
with the resulting object state. -/
def train (st : ActuatorState) (numSamples : ℕ) (fit : String → Forest) :
    Except TrainError Unit × ActuatorState :=
  if nTrainSamples numSamples = 0 ∨ nTestSamples numSamples = 0 then
    (Except.error TrainError.insufficientData, st)
  else
    (Except.ok (),
     { st with models := st.target_names.map (fun act => (act, fit act))
               is_trained := true })

/-- The first declared feature absent from the reading, if any (the loop
`for feature in self.feature_names: if feature not in sensor_data: raise`). -/
def firstMissingFeature (names : List String) (x : String → Option ℚ) : Option String :=
  names.find? (fun f => (x f).isNone)

/-- `ActuatorController.predict`: untrained check, then feature validation,
then one boolean per actuator model. -/
def predict (st : ActuatorState) (x : String → Option ℚ) :
    Except PredictError (List (String × Bool)) :=
  if st.is_trained then
    match firstMissingFeature st.feature_names x with
    | some f => Except.error (PredictError.missingFeature f)
    | none => Except.ok (st.models.map (fun p => (p.1, (p.2.predictWithConf x).1)))
  else Except.error PredictError.untrained

/-- `ActuatorController.predict_with_confidence`: same preconditions, one
(state, confidence) pair per actuator model. -/
def predictWithConfidence (st : ActuatorState) (x : String → Option ℚ) :
    Except PredictError (List (String × (Bool × ℚ))) :=
  if st.is_trained then
    match firstMissingFeature st.feature_names x with
    | some f => Except.error (PredictError.missingFeature f)
    | none => Except.ok (st.models.map (fun p => (p.1, p.2.predictWithConf x)))
  else Except.error PredictError.untrained

/-! ## Claim theorems for the actuator decision engine -/

/-- C1: training with fewer samples than the minimum (2, below which the
80/20 split of `train_test_split` has an empty side) returns an error and
leaves the entire prior state, models, feature names, target names and
trained flag, unchanged. -/
theorem C1_train_insufficient_preserves_model
    (st : ActuatorState) (numSamples : ℕ) (fit : String → Forest)
    (h : numSamples < 2) :
    (train st numSamples fit).1 = Except.error TrainError.insufficientData ∧
    (train st numSamples fit).2 = st := by
  have hcond : nTrainSamples numSamples = 0 ∨ nTestSamples numSamples = 0 := by
    have h01 : numSamples = 0 ∨ numSamples = 1 := by omega
    rcases h01 with rfl | rfl <;> decide
  unfold train
  rw [if_pos hcond]
  exact ⟨rfl, rfl⟩

/-- A concrete trained controller state used by witnesses: one single-tree
model for the fan, one declared feature. -/
def sampleState : ActuatorState :=
  { models := [("fan", ⟨[⟨fun _ => (1, 1)⟩]⟩)]
    feature_names := ["temperature"]
    target_names := ["fan"]
    is_trained := true }

/-- A concrete reading providing every feature. -/
def sampleReading : String → Option ℚ := fun _ => some 25

/-- Witness for C1: training the sample state on one sample fails and
preserves it. -/
theorem C1_train_insufficient_preserves_model_witness :
    (train sampleState 1 (fun _ => ⟨[]⟩)).1 = Except.error TrainError.insufficientData ∧
    (train sampleState 1 (fun _ => ⟨[]⟩)).2 = sampleState :=
  C1_train_insufficient_preserves_model sampleState 1 (fun _ => ⟨[]⟩) (by omega)

/-- C6: `predict` fails with the untrained error when the engine is not
trained; fails with a missing-feature error naming an absent declared feature
when trained but the reading lacks one; and otherwise returns one boolean
decision for every actuator model. -/
theorem C6_predict_error_paths (st : ActuatorState) (x : String → Option ℚ) :
    (st.is_trained = false → predict st x = Except.error PredictError.untrained) ∧
    (st.is_trained = true → (∃ f ∈ st.feature_names, x f = none) →
      ∃ f, f ∈ st.feature_names ∧ x f = none ∧
        predict st x = Except.error (PredictError.missingFeature f)) ∧
    (st.is_trained = true → (∀ f ∈ st.feature_names, (x f).isSome) →
      ∃ r, predict st x = Except.ok r ∧
        ∀ p ∈ st.models, (p.1, (p.2.predictWithConf x).1) ∈ r) := by
  refine ⟨?_, ?_, ?_⟩
  · intro htr
    simp [predict, htr]
  · intro htr hex
    cases hf : firstMissingFeature st.feature_names x with
    | none =>
        exfalso
        obtain ⟨f, hmem, hnone⟩ := hex
        have := List.find?_eq_none.mp hf f hmem
        simp [hnone] at this
    | some f =>
        refine ⟨f, List.mem_of_find?_eq_some hf, ?_, ?_⟩
        · have := List.find?_some hf
          simpa [Option.isNone_iff_eq_none] using this
        · simp [predict, htr, hf]
  · intro htr hall
    cases hf : firstMissingFeature st.feature_names x with
    | some f =>
        exfalso
        have hmem := List.mem_of_find?_eq_some hf
        have := List.find?_some hf
        have hsome := hall f hmem
        simp only [Option.isNone_iff_eq_none] at this
        rw [this] at hsome
        simp at hsome
    | none =>
        refine ⟨st.models.map (fun p => (p.1, (p.2.predictWithConf x).1)), ?_, ?_⟩
        · simp [predict, htr, hf]
        · intro p hp
          exact List.mem_map_of_mem _ hp

/-- Witness for C6: an untrained controller raises the untrained error. -/
theorem C6_predict_error_paths_witness :
    predict { sampleState with is_trained := false } sampleReading =
      Except.error PredictError.untrained :=
  (C6_predict_error_paths { sampleState with is_trained := false } sampleReading).1 rfl

/-- Normalized leaf counts lie in the unit interval. -/
lemma countRatio_mem_unit (a b : ℕ) :
    0 ≤ ((a : ℚ)) / ((a : ℚ) + (b : ℚ)) ∧ ((a : ℚ)) / ((a : ℚ) + (b : ℚ)) ≤ 1 := by
  constructor
  · positivity
  · by_cases h : ((a : ℚ)) + ((b : ℚ)) = 0
    · rw [h, div_zero]; norm_num
    · apply div_le_one_of_le₀
      · have hb : (0 : ℚ) ≤ b := Nat.cast_nonneg b
        linarith
      · positivity

/-- A list of unit-interval rationals has a sum between 0 and its length. -/
lemma sum_mem_zero_length (l : List ℚ) (h : ∀ q ∈ l, 0 ≤ q ∧ q ≤ 1) :
    0 ≤ l.sum ∧ l.sum ≤ (l.length : ℚ) := by
  induction l with
  | nil => simp
  | cons q qs ih =>
      have hq := h q (List.mem_cons_self q qs)
      have ihs := ih (fun r hr => h r (List.mem_cons_of_mem q hr))
      simp only [List.sum_cons, List.length_cons]
      constructor
      · linarith [ihs.1, hq.1]
      · push_cast
        linarith [ihs.2, hq.2]

/-- The mean of a list of unit-interval rationals lies in the unit interval
(also when the list is empty, where the quotient is 0). -/
lemma mean_mem_unit (l : List ℚ) (h : ∀ q ∈ l, 0 ≤ q ∧ q ≤ 1) :
    0 ≤ l.sum / (l.length : ℚ) ∧ l.sum / (l.length : ℚ) ≤ 1 := by
  have hs := sum_mem_zero_length l h
  constructor
  · exact div_nonneg hs.1 (Nat.cast_nonneg _)
  · rcases Nat.eq_zero_or_pos l.length with h0 | h0
    · simp [h0, List.length_eq_zero.mp h0]
    · exact div_le_one_of_le₀ hs.2 (Nat.cast_nonneg _)

/-- Both averaged class probabilities of a forest lie in the unit interval. -/
lemma Forest.proba_mem_unit (f : Forest) (x : String → Option ℚ) :
    (0 ≤ f.proba0 x ∧ f.proba0 x ≤ 1) ∧ (0 ≤ f.proba1 x ∧ f.proba1 x ≤ 1) := by
  constructor
  · have := mean_mem_unit (f.trees.map (fun t => t.proba0 x)) (by
      intro q hq
      obtain ⟨t, ht, rfl⟩ := List.mem_map.mp hq
      exact countRatio_mem_unit _ _)
    simpa [Forest.proba0, DTree.proba0] using this
  · have := mean_mem_unit (f.trees.map (fun t => t.proba1 x)) (by
      intro q hq
      obtain ⟨t, ht, rfl⟩ := List.mem_map.mp hq
      have := countRatio_mem_unit ((t.leafCounts x).2) ((t.leafCounts x).1)
      simpa [DTree.proba1, add_comm] using this)
    simpa [Forest.proba1, DTree.proba1] using this

/-- The confidence reported by one forest lies in the unit interval. -/
lemma Forest.conf_mem_unit (f : Forest) (x : String → Option ℚ) :
    0 ≤ (f.predictWithConf x).2 ∧ (f.predictWithConf x).2 ≤ 1 := by
  have h := f.proba_mem_unit x
  unfold Forest.predictWithConf
  split_ifs with hc
  · exact h.2
  · exact h.1

/-- C8: every confidence returned by `predict_with_confidence`, and the
confidence of every forecast point of `predict_future` on both the trained
path (`exp` of the stored exponent) and the untrained fallback, lies in the
closed interval [0, 1]. -/
theorem C8_confidence_in_unit_interval :
    (∀ (st : ActuatorState) (x : String → Option ℚ) (r : List (String × (Bool × ℚ))),
      predictWithConfidence st x = Except.ok r →
      ∀ p ∈ r, 0 ≤ p.2.2 ∧ p.2.2 ≤ 1) ∧
    (∀ (mo : QuadModel) (hoursAhead i : ℕ)
      (hi : i < (predictFutureTrained mo hoursAhead).length),
      0 ≤ Real.exp (((predictFutureTrained mo hoursAhead)[i].confExp : ℚ) : ℝ) ∧
      Real.exp (((predictFutureTrained mo hoursAhead)[i].confExp : ℚ) : ℝ) ≤ 1) ∧
    (∀ (m : Metric) (current : ℚ) (noise : ℕ → ℚ) (hoursAhead i : ℕ)
      (hi : i < (predictSimpleTrends m current noise hoursAhead).length),
      0 ≤ (predictSimpleTrends m current noise hoursAhead)[i].confidence ∧
      (predictSimpleTrends m current noise hoursAhead)[i].confidence ≤ 1) := by
  refine ⟨?_, ?_, ?_⟩
  · intro st x r hok p hp
    by_cases htr : st.is_trained
    · cases hf : firstMissingFeature st.feature_names x with
      | some f => simp [predictWithConfidence, htr, hf] at hok
      | none =>
          rw [predictWithConfidence] at hok
          simp only [htr, if_true, hf] at hok
          have hr : st.models.map (fun p => (p.1, p.2.predictWithConf x)) = r :=
            Except.ok.inj hok
          rw [← hr] at hp
          obtain ⟨q, hq, rfl⟩ := List.mem_map.mp hp
          exact q.2.conf_mem_unit x
    · simp [predictWithConfidence, htr] at hok
  · intro mo hoursAhead i hi
    rw [predictFutureTrained_getElem mo hoursAhead i hi]
    constructor
    · exact le_of_lt (Real.exp_pos _)
    · apply Real.exp_le_one_iff.mpr
      have hq : ((trainedPoint mo hoursAhead (i + 1)).confExp : ℚ) ≤ 0 := by
        apply div_nonpos_iff.mpr
        right
        constructor
        · exact neg_nonpos_of_nonneg (Nat.cast_nonneg _)
        · positivity
      exact_mod_cast hq
  · intro m current noise hoursAhead i hi
    rw [predictSimpleTrends_getElem m current noise hoursAhead i hi]
    show 0 ≤ max (3 / 10)
        (1 - ((((i + 1) * forecastIntervalMinutes : ℕ) : ℚ) / 60) / (hoursAhead : ℚ)) ∧
      max (3 / 10)
        (1 - ((((i + 1) * forecastIntervalMinutes : ℕ) : ℚ) / 60) / (hoursAhead : ℚ)) ≤ 1
    constructor
    · exact le_trans (by norm_num) (le_max_left _ _)
    · apply max_le (by norm_num)
      have hnn : 0 ≤ ((((i + 1) * forecastIntervalMinutes : ℕ) : ℚ) / 60) / (hoursAhead : ℚ) := by
        positivity
      linarith

/-- Witness for C8: the sample controller reports confidence one half for
the fan, which lies in the unit interval. -/
theorem C8_confidence_in_unit_interval_witness :
    0 ≤ ((1 : ℚ) / 2) ∧ ((1 : ℚ) / 2) ≤ 1 :=
  C8_confidence_in_unit_interval.1 sampleState sampleReading
    [("fan", (false, (1 : ℚ) / 2))]
    (by norm_num [predictWithConfidence, sampleState, sampleReading,
      firstMissingFeature, Forest.predictWithConf, Forest.proba0, Forest.proba1,
      DTree.proba0, DTree.proba1])
    ("fan", (false, (1 : ℚ) / 2)) (List.mem_singleton.mpr rfl)

end SmartPlant
